import Mathlib

/-!
Shallow embedding of `src/release_viz.py` (risingwavelabs/rw-commits-history).

The embedded core is the branch-metadata aggregator:
`get_release_branches`, `get_branch_creation_date`, `get_releases_for_version`,
`get_last_commit_in_branch`, `process_branch_data`, `generate_timeline_data`,
plus the module-level `GITHUB_TOKEN` check and the `days_between` helper used
for derived day spans.

Modelling conventions:
* Timestamps are `Int` epoch seconds (Python `datetime` values; `timedelta.days`
  is floor division of the second difference by 86400, i.e. `Int.fdiv`).
* Remote state and every fallible external call is a field of `Env`:
  `merge_base_date` models the two `git` subprocess calls plus date parsing
  (`none` = any exception on that path), `api_branch` models `repo.get_branch`,
  `api_commits` models `list(repo.get_commits(sha=branch_name)[:100])` as the
  author dates of the first (newest-first) at-most-100 commits, `releases_ok`
  models whether the `repo.get_releases()` listing inside a worker succeeds.
* The thread pool's `as_completed` order is an explicit `completion` argument:
  the list of submitted branch tuples in the order their futures complete.
  Theorems quantify over every permutation of the submitted branches.
* The temporary clone directory is a one-field `FsState`; the `try/finally`
  of `generate_timeline_data` is compiled into every exit path.
* String operations are re-implemented structurally over `List Char` so that
  concrete runs reduce inside the kernel; they mirror Python `in`,
  `startswith`, `replace` and `split` semantics.
-/

namespace ReleaseViz

/-- Python `sep.join`-style split: `splitOnChar '.' s` mirrors `s.split(".")`
for a one-character separator (`"".split(".") = [""]`). -/
def splitOnChar (sep : Char) : List Char → List (List Char)
  | [] => [[]]
  | c :: cs =>
    match splitOnChar sep cs with
    | [] => [[c]]
    | r :: rs => if c = sep then [] :: r :: rs else (c :: r) :: rs

/-- True when `pat` occurs as a contiguous sublist of the second argument. -/
def listContainsSub (pat : List Char) : List Char → Bool
  | [] => pat.isEmpty
  | c :: cs => pat.isPrefixOf (c :: cs) || listContainsSub pat cs

/-- Python `needle in haystack` (substring containment). -/
def strContains (needle haystack : String) : Bool :=
  listContainsSub needle.data haystack.data

/-- Python `s.startswith(pre)`. -/
def strStartsWith (s pre : String) : Bool :=
  pre.data.isPrefixOf s.data

/-- Fuel-driven body of `strReplaceAll`; the fuel (initially the length of the
subject, enough since a nonempty match consumes at least one character) only
makes the recursion structural, it never changes the result for the initial
fuel value. -/
def replaceAllAux (pat rep : List Char) : Nat → List Char → List Char
  | 0, s => s
  | _ + 1, [] => []
  | fuel + 1, c :: cs =>
    if pat ≠ [] && pat.isPrefixOf (c :: cs) then
      rep ++ replaceAllAux pat rep fuel ((c :: cs).drop pat.length)
    else
      c :: replaceAllAux pat rep fuel cs

/-- Python `s.replace(pat, rep)`: replaces every non-overlapping occurrence,
left to right. -/
def strReplaceAll (s pat rep : String) : String :=
  ⟨replaceAllAux pat.data rep.data s.data.length s.data⟩

/-- One component of a dotted version is a nonempty run of digits. -/
def allDigits (s : List Char) : Bool :=
  !s.isEmpty && s.all Char.isDigit

/-- The regex `^\d+\.\d+$` from `get_release_branches` (ASCII digits). -/
def isVersionString (v : String) : Bool :=
  match splitOnChar '.' v.data with
  | [a, b] => allDigits a && allDigits b
  | _ => false

/-- Value of a digit string (the call sites only reach this on regex-validated
numeric components, where it agrees with Python `int`). -/
def digitsToNat (s : List Char) : Nat :=
  s.foldl (fun acc c => acc * 10 + (c.toNat - 48)) 0

/-- Python `int(n)` for one version component; totalised with 0 on non-digit
input, which no call site reaches (versions pass `isVersionString`). -/
def parseIntPart (s : List Char) : Int :=
  if allDigits s then Int.ofNat (digitsToNat s) else 0

/-- The sort key `[int(n) for n in version.split(".")]` used at lines 82 and
305 of the source. -/
def versionKey (v : String) : List Int :=
  (splitOnChar '.' v.data).map parseIntPart

/-- Python list comparison `a < b` (lexicographic, shorter prefix is smaller). -/
def lexLt : List Int → List Int → Bool
  | [], [] => false
  | [], _ :: _ => true
  | _ :: _, [] => false
  | a :: as, b :: bs => if a < b then true else if b < a then false else lexLt as bs

/-- Non-strict key comparison used to drive the stable sorts: `a ≤ b` iff
`¬ b < a`, matching Python `list.sort`'s use of `__lt__`. -/
def lexLe (a b : List Int) : Bool :=
  !lexLt b a

/-- Comparison of two version strings by their parsed integer key. -/
def versionLe (a b : String) : Bool :=
  lexLe (versionKey a) (versionKey b)

/-- Insert `x` into an already sorted list, after every element `y` with
`le y x`; this is the insertion step of a stable ascending sort. -/
def insertSorted (le : α → α → Bool) (x : α) : List α → List α
  | [] => [x]
  | y :: ys => if le y x then y :: insertSorted le x ys else x :: y :: ys

/-- Tail of `pySort`: the accumulator holds the already-processed prefix in
sorted order. -/
def pySortGo (le : α → α → Bool) (acc : List α) : List α → List α
  | [] => acc
  | x :: xs => pySortGo le (insertSorted le x acc) xs

/-- Model of Python `list.sort` / `sorted`: a stable ascending sort (elements
are processed left to right and inserted after their equals). Defined by
structural recursion so that concrete runs reduce in the kernel. -/
def pySort (le : α → α → Bool) (l : List α) : List α :=
  pySortGo le [] l

/-- A GitHub release object: the two attributes the script reads. -/
structure Release where
  tag_name : String
  created_at : Int
  deriving Repr, DecidableEq

/-- A GitHub branch object: its name and `branch.commit.commit.author.date`. -/
structure Branch where
  name : String
  head_author_date : Int
  deriving Repr, DecidableEq

/-- The external world as the script observes it in one aggregation run. -/
structure Env where
  /-- `repo.get_branches()` in listing order. -/
  branches : List Branch
  /-- `repo.get_releases()` in listing order. -/
  releases : List Release
  /-- The `git merge-base` + `git show` + `strptime` pipeline of
  `get_branch_creation_date`; `none` models any exception on that path. -/
  merge_base_date : String → Option Int
  /-- `repo.get_branch(branch_name)` in the fallback; `none` = raises. -/
  api_branch : String → Option Branch
  /-- Author dates of `list(repo.get_commits(sha=branch_name)[:100])`
  (newest first, at most 100); `none` = raises. -/
  api_commits : String → Option (List Int)
  /-- Whether the `repo.get_releases()` listing succeeds inside the worker
  processing the given version (an uncaught failure there propagates to
  `future.result()`). -/
  releases_ok : String → Bool
  /-- `datetime.now()` in epoch seconds. -/
  now : Int
  /-- Whether `../risingwave/.git` exists locally. -/
  local_repo_exists : Bool
  /-- Whether `git clone` of the upstream repository succeeds. -/
  clone_ok : Bool
  /-- Whether `git fetch --all` in the fresh clone succeeds. -/
  fetch_ok : Bool

/-- Lines 71-83: list branches named `release-<version>` with `<version>`
matching `^\d+\.\d+$` (the name without every `release-` occurrence), sorted
by parsed version key. -/
def get_release_branches (env : Env) : List (String × Branch) :=
  pySort (fun x y => versionLe x.1 y.1)
    (env.branches.filterMap (fun b =>
      if strStartsWith b.name "release-" then
        let version := strReplaceAll b.name "release-" ""
        if isVersionString version then some (version, b) else none
      else none))

/-- Lines 86-186: merge-base date of the branch with main, with a cascade of
fallbacks on failure (oldest of the first 100 commits, then the branch head's
author date, then `datetime.now() - timedelta(days=30)`). Every exception is
caught, so the function is total. -/
def get_branch_creation_date (env : Env) (branch_name : String) : Int :=
  match env.merge_base_date branch_name with
  | some d => d
  | none =>
    match env.api_branch branch_name with
    | none => env.now - 30 * 86400
    | some branch =>
      match env.api_commits branch_name with
      | none => env.now - 30 * 86400
      | some commits =>
        match commits.getLast? with
        | some oldest => oldest
        | none => branch.head_author_date

/-- Lines 189-202: releases whose tag starts with `v<version>.` and contains
neither `rc` nor `single-node`, sorted by creation date (stable). -/
def get_releases_for_version (env : Env) (version : String) : List Release :=
  pySort (fun x y => decide (x.created_at ≤ y.created_at))
    (env.releases.filter (fun r =>
      strStartsWith r.tag_name ("v" ++ version ++ ".")
      && !strContains "rc" r.tag_name
      && !strContains "single-node" r.tag_name))

/-- Lines 205-207: `branch.commit.commit.author.date`. -/
def get_last_commit_in_branch (branch : Branch) : Int :=
  branch.head_author_date

/-- The dict built by `process_branch_data` (lines 220-229). Each date field
holds exactly what the corresponding dict entry holds; entries that the source
can set to `None` are `Option`-typed. -/
structure BranchData where
  version : String
  branch_name : String
  branch_creation : Option Int
  first_release : Option Int
  last_release : Option Int
  last_commit : Option Int
  first_release_tag : Option String
  last_release_tag : Option String
  deriving Repr, DecidableEq

/-- The dict literal returned at lines 220-229 (`releases[0]`/`releases[-1]`
guarded by `if releases else None`). -/
def branch_record (env : Env) (bt : String × Branch) : BranchData :=
  let releases := get_releases_for_version env bt.1
  { version := bt.1
    branch_name := bt.2.name
    branch_creation := some (get_branch_creation_date env bt.2.name)
    first_release := (releases.head?).map Release.created_at
    last_release := (releases.getLast?).map Release.created_at
    last_commit := some (get_last_commit_in_branch bt.2)
    first_release_tag := (releases.head?).map Release.tag_name
    last_release_tag := (releases.getLast?).map Release.tag_name }

/-- Lines 210-229: assemble one branch's record. `none` models the worker
raising (only the release listing can raise: `get_branch_creation_date` is
total, and the branch object's attributes are already fetched). -/
def process_branch_data (env : Env) (bt : String × Branch) : Option BranchData :=
  if env.releases_ok bt.1 then some (branch_record env bt) else none

/-- Infrastructure failures that escape `generate_timeline_data`. -/
inductive InfraError where
  | cloneFailed
  | fetchFailed
  deriving Repr, DecidableEq

/-- Local filesystem as far as the run touches it. -/
structure FsState where
  /-- Whether the `tempfile.mkdtemp()` directory exists on disk. -/
  temp_dir_present : Bool
  deriving Repr, DecidableEq

/-- Lines 288-296: collect the futures' results in completion order, dropping
a branch whose worker raised (the `except` only prints). -/
def run_pool (env : Env) (completion : List (String × Branch)) : List BranchData :=
  completion.filterMap (process_branch_data env)

/-- Line 305: `release_data.sort(key=lambda x: [int(n) for n in x["version"].split(".")])`. -/
def sortReleaseData (l : List BranchData) : List BranchData :=
  pySort (fun x y => versionLe x.version y.version) l

/-- The `try` body of `generate_timeline_data` (lines 240-296): returns the
outcome together with whether a temp directory was created (and hence is on
disk when the body exits). -/
def generate_timeline_body (env : Env) (completion : List (String × Branch)) :
    Except InfraError (List BranchData) × Bool :=
  if env.local_repo_exists then
    (Except.ok (run_pool env completion), false)
  else if !env.clone_ok then
    (Except.error InfraError.cloneFailed, true)
  else if !env.fetch_ok then
    (Except.error InfraError.fetchFailed, true)
  else
    (Except.ok (run_pool env completion), true)

/-- The `finally` clause (lines 298-302): `shutil.rmtree(temp_dir)` when one
was created. -/
def finally_cleanup (temp_dir_created : Bool) (fs : FsState) : FsState :=
  if temp_dir_created then { fs with temp_dir_present := false } else fs

/-- Lines 232-306: full aggregation run. `completion` is the order in which
the per-branch futures complete (`as_completed`); the sort at line 305 runs
after the `finally`, only on the non-exception path. Returns the result (or
the escaping exception) and the filesystem state after the run. -/
def generate_timeline_data (env : Env) (completion : List (String × Branch)) :
    Except InfraError (List BranchData) × FsState :=
  let body := generate_timeline_body env completion
  let fs_during : FsState := { temp_dir_present := body.2 }
  let fs_after := finally_cleanup body.2 fs_during
  match body.1 with
  | Except.error e => (Except.error e, fs_after)
  | Except.ok data => (Except.ok (sortReleaseData data), fs_after)

/-- Lines 368-371 (`days_between` inside `generate_visualization`): `None`
when either endpoint is missing, else `(end - start).days` (floor of the
second difference over 86400, Python `timedelta.days`). -/
def days_between (start_date end_date : Option Int) : Option Int :=
  match start_date, end_date with
  | some s, some e => some ((e - s).fdiv 86400)
  | _, _ => none

/-- Derived span: branch creation to first release. -/
def preDays (d : BranchData) : Option Int :=
  days_between d.branch_creation d.first_release

/-- Derived span: first release to last release. -/
def liveDays (d : BranchData) : Option Int :=
  days_between d.first_release d.last_release

/-- Derived span: last release to last commit. -/
def maintDays (d : BranchData) : Option Int :=
  days_between d.last_release d.last_commit

/-- The error message of lines 35-38. -/
def tokenMissingMsg : String :=
  "GITHUB_TOKEN environment variable is not set. Please create a .env file based on .env.template"

/-- Lines 34-38, run at module import time: `os.getenv` result is `none` when
the variable is absent; Python truthiness also rejects the empty string. -/
def module_init (github_token : Option String) : Except String String :=
  match github_token with
  | none => Except.error tokenMissingMsg
  | some t => if t = "" then Except.error tokenMissingMsg else Except.ok t

/-- Whole-program behaviour relevant to configuration errors: the token check
happens at import, before `main` ever calls `generate_timeline_data`. -/
def run_program (github_token : Option String) (env : Env)
    (completion : List (String × Branch)) : Except String (List BranchData) :=
  match module_init github_token with
  | Except.error e => Except.error e
  | Except.ok _ =>
    match (generate_timeline_data env completion).1 with
    | Except.error InfraError.cloneFailed => Except.error "git clone failed"
    | Except.error InfraError.fetchFailed => Except.error "git fetch failed"
    | Except.ok data => Except.ok data

/-- Boolean success test for `Except` results. -/
def exceptIsOk : Except ε α → Bool
  | Except.ok _ => true
  | Except.error _ => false

instance [DecidableEq ε] [DecidableEq α] : DecidableEq (Except ε α) := fun x y =>
  match x, y with
  | Except.ok a, Except.ok b =>
    if h : a = b then Decidable.isTrue (congrArg Except.ok h)
    else Decidable.isFalse (fun hc => h (Except.ok.inj hc))
  | Except.error a, Except.error b =>
    if h : a = b then Decidable.isTrue (congrArg Except.error h)
    else Decidable.isFalse (fun hc => h (Except.error.inj hc))
  | Except.ok _, Except.error _ => Decidable.isFalse (fun hc => Except.noConfusion hc)
  | Except.error _, Except.ok _ => Decidable.isFalse (fun hc => Except.noConfusion hc)

/-! Concrete data for witnesses and counterexamples. -/

/-- A release branch for version 2.0. -/
def branch20 : Branch := { name := "release-2.0", head_author_date := 5000 }

/-- A release branch for version 2.1. -/
def branch21 : Branch := { name := "release-2.1", head_author_date := 9000 }

/-- The synthetic tag set of the spec's filtering property. -/
def syntheticReleases : List Release :=
  [ { tag_name := "v2.1.0", created_at := 10 },
    { tag_name := "v2.1.0-rc1", created_at := 5 },
    { tag_name := "v2.1.0-single-node", created_at := 6 },
    { tag_name := "v2.1.1", created_at := 20 } ]

/-- A concrete environment: two release branches, the synthetic tag set, and a
merge-base query that succeeds for `release-2.0` only; `release-2.1`'s date
resolution (merge-base and both API fallbacks) fails entirely. -/
def envW : Env :=
  { branches := [branch21, branch20]
    releases := syntheticReleases
    merge_base_date := fun n => if n = "release-2.0" then some 1000 else none
    api_branch := fun _ => none
    api_commits := fun _ => none
    releases_ok := fun _ => true
    now := 86400000
    local_repo_exists := true
    clone_ok := true
    fetch_ok := true }

/-- A completion order opposite to the sorted branch order. -/
def compW : List (String × Branch) := [("2.1", branch21), ("2.0", branch20)]

/-- The output of the concrete run of `envW` under completion order `compW`. -/
def outW : List BranchData := sortReleaseData (run_pool envW compW)

/-- `envW` with `release-2.0`'s merge-base query also failing (the perturbed
environment of the fault-isolation witness). -/
def envW2 : Env := { envW with merge_base_date := fun _ => none }

/-- `envW` with every merge-base query succeeding (no branch reaches the
wall-clock fallback). -/
def envW9 : Env := { envW with merge_base_date := fun _ => some 1000 }

/-- `envW` without a local mirror, so the run clones into a temp directory. -/
def envW7 : Env := { envW with local_repo_exists := false }

/-- Confident environment: merge-base resolution succeeds with date 1000. -/
def envC6a : Env :=
  { branches := [branch21]
    releases := []
    merge_base_date := fun _ => some 1000
    api_branch := fun _ => none
    api_commits := fun _ => none
    releases_ok := fun _ => true
    now := 0
    local_repo_exists := true
    clone_ok := true
    fetch_ok := true }

/-- Degraded environment: merge-base fails and the API fallback's oldest
commit happens to carry the same date 1000. -/
def envC6b : Env :=
  { envC6a with
    merge_base_date := fun _ => none
    api_branch := fun _ => some branch21
    api_commits := fun _ => some [2000, 1000] }

/-- Environment whose single branch falls through every date fallback to the
wall clock, observed at time 2592000. -/
def envC9a : Env :=
  { branches := [branch21]
    releases := []
    merge_base_date := fun _ => none
    api_branch := fun _ => none
    api_commits := fun _ => none
    releases_ok := fun _ => true
    now := 2592000
    local_repo_exists := true
    clone_ok := true
    fetch_ok := true }

/-- The same upstream state observed one day later. -/
def envC9b : Env := { envC9a with now := 2678400 }

/-- Completion order for the wall-clock counterexample run. -/
def compC9 : List (String × Branch) := [("2.1", branch21)]

/-- `envW` with the release-registry listing failing inside the worker that
processes version 2.1 (every other query unchanged): the uncaught exception
propagates to `future.result()` and the branch's record is dropped. -/
def envC1 : Env := { envW with releases_ok := fun v => !(v == "2.1") }

/-- Output of the `envC1` run under completion order `compW`. -/
def outC1 : List BranchData := sortReleaseData (run_pool envC1 compW)

/-- Output of the run of `envW9` at clock 86400000, completion order `compW`. -/
def outW9a : List BranchData :=
  sortReleaseData (run_pool { envW9 with now := 86400000 } compW)

/-- The sorted completion order for the second `envW9` run. -/
def compW9b : List (String × Branch) := [("2.0", branch20), ("2.1", branch21)]

/-- Output of the run of `envW9` at clock 0, completion order `compW9b`. -/
def outW9b : List BranchData :=
  sortReleaseData (run_pool { envW9 with now := 0 } compW9b)

/-- Record with creation 2024-01-01T00:00:00Z and first release
2024-01-11T00:00:00Z (epoch seconds), for the day-span example. -/
def exampleRecord : BranchData :=
  { version := "2.1"
    branch_name := "release-2.1"
    branch_creation := some 1704067200
    first_release := some 1704931200
    last_release := none
    last_commit := some 1704931200
    first_release_tag := some "v2.1.0"
    last_release_tag := none }

/-! Order lemmas for the Python list comparison on version keys. -/

theorem lexLt_irrefl (a : List Int) : lexLt a a = false := by
  induction a with
  | nil => rfl
  | cons x xs ih => simp [lexLt, ih]

theorem lexLt_cons_iff (x y : Int) (xs ys : List Int) :
    lexLt (x :: xs) (y :: ys) = true ↔ x < y ∨ (x = y ∧ lexLt xs ys = true) := by
  simp only [lexLt]
  split_ifs with h1 h2
  · simp [h1]
  · simp only [Bool.false_eq_true, false_iff]
    intro hc
    rcases hc with hc | ⟨hc, _⟩ <;> omega
  · have hxy : x = y := by omega
    simp [hxy]

theorem lexLt_trans : ∀ {a b c : List Int},
    lexLt a b = true → lexLt b c = true → lexLt a c = true
  | [], [], _, h1, _ => by simp [lexLt] at h1
  | [], _ :: _, [], _, h2 => by simp [lexLt] at h2
  | [], _ :: _, _ :: _, _, _ => rfl
  | _ :: _, [], _, h1, _ => by simp [lexLt] at h1
  | _ :: _, _ :: _, [], _, h2 => by simp [lexLt] at h2
  | x :: xs, y :: ys, z :: zs, h1, h2 => by
    rw [lexLt_cons_iff] at h1 h2 ⊢
    rcases h1 with h1 | ⟨rfl, h1⟩
    · rcases h2 with h2 | ⟨rfl, h2⟩
      · exact Or.inl (lt_trans h1 h2)
      · exact Or.inl h1
    · rcases h2 with h2 | ⟨rfl, h2⟩
      · exact Or.inl h2
      · exact Or.inr ⟨rfl, lexLt_trans h1 h2⟩

theorem lexLt_asymm {a b : List Int} (h1 : lexLt a b = true) (h2 : lexLt b a = true) :
    False := by
  have h := lexLt_trans h1 h2
  rw [lexLt_irrefl] at h
  exact Bool.false_ne_true h

theorem lexLt_connex : ∀ {a b : List Int},
    lexLt a b = false → lexLt b a = false → a = b
  | [], [], _, _ => rfl
  | [], _ :: _, h1, _ => by simp [lexLt] at h1
  | _ :: _, [], _, h2 => by simp [lexLt] at h2
  | x :: xs, y :: ys, h1, h2 => by
    simp only [lexLt] at h1 h2
    by_cases hxy : x < y
    · rw [if_pos hxy] at h1
      exact absurd h1 (by simp)
    · by_cases hyx : y < x
      · rw [if_pos hyx] at h2
        exact absurd h2 (by simp)
      · rw [if_neg hxy, if_neg hyx] at h1
        rw [if_neg hyx, if_neg hxy] at h2
        have hx : x = y := by omega
        rw [hx, lexLt_connex h1 h2]

theorem lexLe_refl (a : List Int) : lexLe a a = true := by
  simp [lexLe, lexLt_irrefl]

theorem lexLe_total (a b : List Int) : lexLe a b = true ∨ lexLe b a = true := by
  simp only [lexLe, Bool.not_eq_true']
  rcases hab : lexLt b a with _ | _
  · exact Or.inl rfl
  · rcases hba : lexLt a b with _ | _
    · exact Or.inr rfl
    · exact (lexLt_asymm hab hba).elim

theorem lexLe_trans {a b c : List Int} (h1 : lexLe a b = true) (h2 : lexLe b c = true) :
    lexLe a c = true := by
  simp only [lexLe, Bool.not_eq_true'] at h1 h2 ⊢
  rcases hca : lexLt c a with _ | _
  · rfl
  · exfalso
    rcases hab : lexLt a b with _ | _
    · have hab2 := lexLt_connex hab h1
      rw [← hab2, hca] at h2
      simp at h2
    · have h3 := lexLt_trans hca hab
      rw [h2] at h3
      simp at h3

theorem lexLt_of_lexLe_of_ne {a b : List Int} (h1 : lexLe a b = true) (h2 : a ≠ b) :
    lexLt a b = true := by
  simp only [lexLe, Bool.not_eq_true'] at h1
  rcases hab : lexLt a b with _ | _
  · exact absurd (lexLt_connex hab h1) h2
  · rfl

/-! Correctness of the stable sort model. -/

theorem insertSorted_perm (le : α → α → Bool) (x : α) (l : List α) :
    (insertSorted le x l).Perm (x :: l) := by
  induction l with
  | nil => rfl
  | cons y ys ih =>
    simp only [insertSorted]
    split_ifs with h
    · exact (ih.cons y).trans (List.Perm.swap x y ys)
    · rfl

theorem pairwise_insertSorted (le : α → α → Bool)
    (htot : ∀ a b, le a b = true ∨ le b a = true)
    (htrans : ∀ a b c, le a b = true → le b c = true → le a c = true)
    (x : α) {l : List α} (h : l.Pairwise (fun a b => le a b = true)) :
    (insertSorted le x l).Pairwise (fun a b => le a b = true) := by
  induction l with
  | nil => simp [insertSorted]
  | cons y ys ih =>
    rcases List.pairwise_cons.mp h with ⟨hy, hys⟩
    simp only [insertSorted]
    split_ifs with hle
    · refine List.pairwise_cons.mpr ⟨?_, ih hys⟩
      intro z hz
      rcases List.mem_cons.mp ((insertSorted_perm le x ys).mem_iff.mp hz) with rfl | hz2
      · exact hle
      · exact hy z hz2
    · have hxy : le x y = true := by
        rcases htot x y with h1 | h1
        · exact h1
        · rw [h1] at hle
          exact absurd rfl hle
      refine List.pairwise_cons.mpr ⟨?_, h⟩
      intro z hz
      rcases List.mem_cons.mp hz with rfl | hz2
      · exact hxy
      · exact htrans x y z hxy (hy z hz2)

theorem pySortGo_perm (le : α → α → Bool) :
    ∀ (l acc : List α), (pySortGo le acc l).Perm (acc ++ l)
  | [], acc => by simp [pySortGo]
  | x :: xs, acc => by
    simp only [pySortGo]
    refine (pySortGo_perm le xs (insertSorted le x acc)).trans ?_
    refine ((insertSorted_perm le x acc).append_right xs).trans ?_
    exact List.perm_middle.symm

theorem pySort_perm (le : α → α → Bool) (l : List α) : (pySort le l).Perm l := by
  simpa using pySortGo_perm le l []

theorem pySortGo_pairwise (le : α → α → Bool)
    (htot : ∀ a b, le a b = true ∨ le b a = true)
    (htrans : ∀ a b c, le a b = true → le b c = true → le a c = true) :
    ∀ (l acc : List α), acc.Pairwise (fun a b => le a b = true) →
      (pySortGo le acc l).Pairwise (fun a b => le a b = true)
  | [], _, h => h
  | x :: xs, acc, h =>
    pySortGo_pairwise le htot htrans xs (insertSorted le x acc)
      (pairwise_insertSorted le htot htrans x h)

theorem pySort_pairwise (le : α → α → Bool)
    (htot : ∀ a b, le a b = true ∨ le b a = true)
    (htrans : ∀ a b c, le a b = true → le b c = true → le a c = true)
    (l : List α) : (pySort le l).Pairwise (fun a b => le a b = true) :=
  pySortGo_pairwise le htot htrans l [] List.Pairwise.nil

/-! Sortedness of the aggregated output. -/

theorem versionLe_total (a b : String) : versionLe a b = true ∨ versionLe b a = true :=
  lexLe_total (versionKey a) (versionKey b)

theorem versionLe_trans {a b c : String} (h1 : versionLe a b = true)
    (h2 : versionLe b c = true) : versionLe a c = true :=
  lexLe_trans h1 h2

theorem sortReleaseData_perm (l : List BranchData) : (sortReleaseData l).Perm l :=
  pySort_perm _ l

theorem sortReleaseData_pairwise (l : List BranchData) :
    (sortReleaseData l).Pairwise (fun x y => versionLe x.version y.version = true) :=
  pySort_pairwise _ (fun x y => versionLe_total x.version y.version)
    (fun _ _ _ h1 h2 => by exact versionLe_trans h1 h2) l

theorem sortReleaseData_strict {l : List BranchData}
    (hdist : l.Pairwise (fun x y => versionKey x.version ≠ versionKey y.version)) :
    (sortReleaseData l).Pairwise
      (fun x y => lexLt (versionKey x.version) (versionKey y.version) = true) := by
  have hsym : ∀ {x y : BranchData}, versionKey x.version ≠ versionKey y.version →
      versionKey y.version ≠ versionKey x.version := fun h => h.symm
  have hdist2 := ((sortReleaseData_perm l).pairwise_iff hsym).mpr hdist
  have hle := sortReleaseData_pairwise l
  refine (hle.and hdist2).imp ?_
  rintro a b ⟨h1, h2⟩
  exact lexLt_of_lexLe_of_ne h1 (fun he => h2 (by rw [he]))

theorem sortReleaseData_eq_of_perm {l1 l2 : List BranchData} (hp : l1.Perm l2)
    (hdist : l1.Pairwise (fun x y => versionKey x.version ≠ versionKey y.version)) :
    sortReleaseData l1 = sortReleaseData l2 := by
  have hsym : ∀ {x y : BranchData}, versionKey x.version ≠ versionKey y.version →
      versionKey y.version ≠ versionKey x.version := fun h => h.symm
  have hdist2 := (hp.pairwise_iff hsym).mp hdist
  have hs1 := sortReleaseData_strict hdist
  have hs2 := sortReleaseData_strict hdist2
  have hperm : (sortReleaseData l1).Perm (sortReleaseData l2) :=
    ((sortReleaseData_perm l1).trans hp).trans (sortReleaseData_perm l2).symm
  haveI : IsAntisymm BranchData
      (fun x y => lexLt (versionKey x.version) (versionKey y.version) = true) :=
    ⟨fun _ _ h1 h2 => (lexLt_asymm h1 h2).elim⟩
  exact List.eq_of_perm_of_sorted hperm hs1 hs2

/-! Lemmas about per-branch processing and the aggregation run. -/

theorem process_branch_data_of_ok {env : Env} {bt : String × Branch}
    (h : env.releases_ok bt.1 = true) :
    process_branch_data env bt = some (branch_record env bt) := by
  simp [process_branch_data, h]

theorem process_branch_data_version {env : Env} {bt : String × Branch} {d : BranchData}
    (h : process_branch_data env bt = some d) : d.version = bt.1 := by
  unfold process_branch_data at h
  split_ifs at h
  rw [← Option.some.inj h]
  rfl

theorem run_pool_map_version {env : Env} : ∀ {completion : List (String × Branch)},
    (∀ bt ∈ completion, env.releases_ok bt.1 = true) →
    (run_pool env completion).map (fun d => d.version) = completion.map (fun bt => bt.1)
  | [], _ => rfl
  | bt :: rest, h => by
    have hbt := h bt (List.mem_cons_self bt rest)
    have hrest : ∀ x ∈ rest, env.releases_ok x.1 = true :=
      fun x hx => h x (List.mem_cons_of_mem bt hx)
    have ih := run_pool_map_version hrest
    simp only [run_pool, List.filterMap_cons, process_branch_data_of_ok hbt] at ih ⊢
    simp [ih, branch_record]

theorem run_pool_keys_pairwise (env : Env) {completion : List (String × Branch)}
    (h : completion.Pairwise (fun x y => versionKey x.1 ≠ versionKey y.1)) :
    (run_pool env completion).Pairwise
      (fun x y => versionKey x.version ≠ versionKey y.version) := by
  unfold run_pool
  refine List.pairwise_filterMap.mpr (h.imp ?_)
  intro a b hab d hd d2 hd2
  rw [process_branch_data_version (Option.mem_def.mp hd),
    process_branch_data_version (Option.mem_def.mp hd2)]
  exact hab

theorem run_pool_congr {env1 env2 : Env} : ∀ {completion : List (String × Branch)},
    (∀ bt ∈ completion, process_branch_data env1 bt = process_branch_data env2 bt) →
    run_pool env1 completion = run_pool env2 completion
  | [], _ => rfl
  | bt :: rest, h => by
    have ih := run_pool_congr (fun x hx => h x (List.mem_cons_of_mem bt hx))
    simp only [run_pool, List.filterMap_cons] at ih ⊢
    rw [h bt (List.mem_cons_self bt rest), ih]

theorem run_pool_perm (env : Env) {c1 c2 : List (String × Branch)} (hp : c1.Perm c2) :
    (run_pool env c1).Perm (run_pool env c2) :=
  hp.filterMap _

theorem generate_body_ok {env : Env} {c : List (String × Branch)} {data : List BranchData}
    (h : (generate_timeline_body env c).1 = Except.ok data) : data = run_pool env c := by
  unfold generate_timeline_body at h
  split_ifs at h <;> simp_all

theorem generate_ok_eq {env : Env} {c : List (String × Branch)} {out : List BranchData}
    (h : (generate_timeline_data env c).1 = Except.ok out) :
    out = sortReleaseData (run_pool env c) := by
  simp only [generate_timeline_data] at h
  rcases hb : (generate_timeline_body env c).1 with e | data
  · rw [hb] at h
    simp at h
  · rw [hb] at h
    simp only [Except.ok.injEq] at h
    rw [← h, generate_body_ok hb]

theorem generate_fs (env : Env) (c : List (String × Branch)) :
    (generate_timeline_data env c).2.temp_dir_present = false := by
  simp only [generate_timeline_data, finally_cleanup]
  rcases hb : (generate_timeline_body env c).1 with e | data <;>
    cases hb2 : (generate_timeline_body env c).2 <;> simp [hb, hb2]

theorem generate_body_created {env : Env} (c : List (String × Branch))
    (h : env.local_repo_exists = false) : (generate_timeline_body env c).2 = true := by
  rcases hc : env.clone_ok with _ | _ <;> rcases hf : env.fetch_ok with _ | _ <;>
    simp [generate_timeline_body, h, hc, hf]

theorem generate_isOk (env : Env) (c : List (String × Branch)) :
    exceptIsOk (generate_timeline_data env c).1
      = (env.local_repo_exists || (env.clone_ok && env.fetch_ok)) := by
  cases hl : env.local_repo_exists <;> cases hc : env.clone_ok <;>
    cases hf : env.fetch_ok <;>
    simp [generate_timeline_data, generate_timeline_body, exceptIsOk, hl, hc, hf]

theorem get_releases_congr {env1 env2 : Env} (hrel : env1.releases = env2.releases)
    (v : String) : get_releases_for_version env1 v = get_releases_for_version env2 v := by
  unfold get_releases_for_version
  rw [hrel]

theorem get_branch_creation_date_congr {env1 env2 : Env} {n : String}
    (hm : env1.merge_base_date n = env2.merge_base_date n)
    (hab : env1.api_branch n = env2.api_branch n)
    (hac : env1.api_commits n = env2.api_commits n)
    (hnow : env1.now = env2.now) :
    get_branch_creation_date env1 n = get_branch_creation_date env2 n := by
  unfold get_branch_creation_date
  rw [hm, hab, hac, hnow]

theorem branch_record_congr {env1 env2 : Env} {bt : String × Branch}
    (hrel : env1.releases = env2.releases)
    (hm : env1.merge_base_date bt.2.name = env2.merge_base_date bt.2.name)
    (hab : env1.api_branch bt.2.name = env2.api_branch bt.2.name)
    (hac : env1.api_commits bt.2.name = env2.api_commits bt.2.name)
    (hnow : env1.now = env2.now) :
    branch_record env1 bt = branch_record env2 bt := by
  unfold branch_record
  rw [get_releases_congr hrel, get_branch_creation_date_congr hm hab hac hnow]

theorem process_branch_data_congr {env1 env2 : Env} {bt : String × Branch}
    (hrel : env1.releases = env2.releases)
    (hm : env1.merge_base_date bt.2.name = env2.merge_base_date bt.2.name)
    (hab : env1.api_branch bt.2.name = env2.api_branch bt.2.name)
    (hac : env1.api_commits bt.2.name = env2.api_commits bt.2.name)
    (hnow : env1.now = env2.now)
    (hro : env1.releases_ok bt.1 = env2.releases_ok bt.1) :
    process_branch_data env1 bt = process_branch_data env2 bt := by
  unfold process_branch_data
  rw [hro, branch_record_congr hrel hm hab hac hnow]

theorem process_now_indep {env : Env} {n1 n2 : Int} {bt : String × Branch}
    (hcond : (env.merge_base_date bt.2.name).isSome = true
      ∨ ((env.api_branch bt.2.name).isSome = true
          ∧ (env.api_commits bt.2.name).isSome = true)) :
    process_branch_data { env with now := n1 } bt
      = process_branch_data { env with now := n2 } bt := by
  have hg : get_branch_creation_date { env with now := n1 } bt.2.name
      = get_branch_creation_date { env with now := n2 } bt.2.name := by
    unfold get_branch_creation_date
    rcases hmb : env.merge_base_date bt.2.name with _ | d
    · rcases hcond with hc | ⟨hb, hc2⟩
      · rw [hmb] at hc
        simp at hc
      · rcases hab : env.api_branch bt.2.name with _ | br
        · rw [hab] at hb
          simp at hb
        · rcases hac : env.api_commits bt.2.name with _ | cs
          · rw [hac] at hc2
            simp at hc2
          · simp only [hmb, hab, hac]
    · simp only [hmb]
  unfold process_branch_data branch_record
  rw [hg]
  rfl

/-! Claim theorems. -/

/-- Claim C1 counterexample: the claim as stated is false on the code — when
one branch's release-registry listing raises inside its worker, the handler
at lines 294-295 only prints and the branch's record is dropped, so the
completing run produces zero records for that input branch (here `2.1`,
which is in the input and whose sibling `2.0` still gets its one record). -/
theorem claim_C1_counterexample :
    (generate_timeline_data envC1 compW).1 = Except.ok outC1
    ∧ ("2.1", branch21) ∈ get_release_branches envC1
    ∧ outC1.countP (fun d => d.version == "2.1") = 0
    ∧ outC1.countP (fun d => d.version == "2.0") = 1 :=
  ⟨rfl, by decide, by decide, by decide⟩

/-- Claim C1 amended: for every non-empty input sequence of branch
identifiers whose version keys are distinct, a completing aggregation run
produces exactly one output record per input branch (the output versions are
a permutation of the input versions, and each input branch's version occurs
exactly once), for every completion order and regardless of branches whose
date resolution fails (the merge-base and API fallback behaviour is
arbitrary), provided each branch's release-registry listing succeeds — a
branch whose listing raises is silently dropped from the output. -/
theorem claim_C1_one_record_per_branch (env : Env) (completion : List (String × Branch))
    (out : List BranchData)
    (hne : get_release_branches env ≠ [])
    (hperm : completion.Perm (get_release_branches env))
    (hok : ∀ bt ∈ get_release_branches env, env.releases_ok bt.1 = true)
    (hdist : (get_release_branches env).Pairwise
      (fun x y => versionKey x.1 ≠ versionKey y.1))
    (hout : (generate_timeline_data env completion).1 = Except.ok out) :
    (out.map fun d => d.version).Perm ((get_release_branches env).map fun bt => bt.1)
    ∧ ∀ bt ∈ get_release_branches env, out.countP (fun d => d.version == bt.1) = 1 := by
  have hout2 := generate_ok_eq hout
  have hokc : ∀ bt ∈ completion, env.releases_ok bt.1 = true :=
    fun bt hbt => hok bt (hperm.mem_iff.mp hbt)
  have hperm2 : (out.map fun d => d.version).Perm
      ((get_release_branches env).map fun bt => bt.1) := by
    rw [hout2]
    have p1 := (sortReleaseData_perm (run_pool env completion)).map (fun d => d.version)
    rw [run_pool_map_version hokc] at p1
    exact p1.trans (hperm.map (fun bt => bt.1))
  refine ⟨hperm2, ?_⟩
  intro bt hbt
  have h1 : out.countP (fun d => d.version == bt.1)
      = (out.map fun d => d.version).countP (fun v => v == bt.1) := by
    rw [List.countP_map]
    rfl
  rw [h1, hperm2.countP_eq]
  have hnodup : (((get_release_branches env).map fun bt => bt.1)).Nodup :=
    List.pairwise_map.mpr (hdist.imp fun hk he => hk (by rw [he]))
  have hmem : bt.1 ∈ (get_release_branches env).map fun bt => bt.1 :=
    List.mem_map_of_mem _ hbt
  have hcount := List.count_eq_one_of_mem hnodup hmem
  simpa [List.count] using hcount

/-- Witness for C1: the two-branch run `envW` (where `release-2.1`'s date
resolution fails completely) under the reversed completion order. -/
theorem claim_C1_witness :
    (outW.map fun d => d.version).Perm ((get_release_branches envW).map fun bt => bt.1)
    ∧ ∀ bt ∈ get_release_branches envW, outW.countP (fun d => d.version == bt.1) = 1 :=
  claim_C1_one_record_per_branch envW compW outW (by decide) (by decide) (by decide)
    (by decide) rfl

/-- Claim C2: fault isolation — perturbing only one branch's resolution
behaviour (its merge-base query, its API fallbacks, and its release listing)
leaves every other branch's record unchanged and never changes whether the
aggregation completes. -/
theorem claim_C2_fault_isolation (env env2 : Env) (completion : List (String × Branch))
    (b_name b_version : String)
    (hbr : env2.branches = env.branches)
    (hrel : env2.releases = env.releases)
    (hnow : env2.now = env.now)
    (hlocal : env2.local_repo_exists = env.local_repo_exists)
    (hclone : env2.clone_ok = env.clone_ok)
    (hfetch : env2.fetch_ok = env.fetch_ok)
    (hm : ∀ s, s ≠ b_name → env2.merge_base_date s = env.merge_base_date s)
    (hab : ∀ s, s ≠ b_name → env2.api_branch s = env.api_branch s)
    (hac : ∀ s, s ≠ b_name → env2.api_commits s = env.api_commits s)
    (hro : ∀ v, v ≠ b_version → env2.releases_ok v = env.releases_ok v) :
    (∀ bt : String × Branch, bt.2.name ≠ b_name → bt.1 ≠ b_version →
        process_branch_data env2 bt = process_branch_data env bt)
    ∧ exceptIsOk (generate_timeline_data env2 completion).1
        = exceptIsOk (generate_timeline_data env completion).1 := by
  constructor
  · intro bt h1 h2
    exact process_branch_data_congr hrel (hm _ h1) (hab _ h1) (hac _ h1) hnow (hro _ h2)
  · rw [generate_isOk, generate_isOk, hlocal, hclone, hfetch]

/-- Witness for C2: breaking `release-2.0`'s merge-base resolution leaves the
`release-2.1` record unchanged and the run still completes. -/
theorem claim_C2_witness :
    process_branch_data envW2 ("2.1", branch21) = process_branch_data envW ("2.1", branch21)
    ∧ exceptIsOk (generate_timeline_data envW2 compW).1
        = exceptIsOk (generate_timeline_data envW compW).1 :=
  ⟨(claim_C2_fault_isolation envW envW2 compW "release-2.0" "2.0" rfl rfl rfl rfl rfl rfl
      (fun s hs => by simp [envW2, envW, hs]) (fun _ _ => rfl) (fun _ _ => rfl)
      (fun _ _ => rfl)).1 ("2.1", branch21) (by decide) (by decide),
   (claim_C2_fault_isolation envW envW2 compW "release-2.0" "2.0" rfl rfl rfl rfl rfl rfl
      (fun s hs => by simp [envW2, envW, hs]) (fun _ _ => rfl) (fun _ _ => rfl)
      (fun _ _ => rfl)).2⟩

/-- Claim C3: every completing aggregation output is sorted strictly
ascending by the parsed version tuple, for every completion order of the
per-branch futures (version keys of the discovered branches assumed
distinct, as the sole sort key). -/
theorem claim_C3_output_sorted (env : Env) (completion : List (String × Branch))
    (out : List BranchData)
    (hperm : completion.Perm (get_release_branches env))
    (hdist : (get_release_branches env).Pairwise
      (fun x y => versionKey x.1 ≠ versionKey y.1))
    (hout : (generate_timeline_data env completion).1 = Except.ok out) :
    out.Pairwise (fun a b => lexLt (versionKey a.version) (versionKey b.version) = true) := by
  have hsym : ∀ {x y : String × Branch}, versionKey x.1 ≠ versionKey y.1 →
      versionKey y.1 ≠ versionKey x.1 := fun h => h.symm
  have hdistc := (hperm.pairwise_iff hsym).mpr hdist
  rw [generate_ok_eq hout]
  exact sortReleaseData_strict (run_pool_keys_pairwise env hdistc)

/-- Witness for C3: the concrete run of `envW` with reversed completion
order yields a strictly version-sorted output. -/
theorem claim_C3_witness :
    outW.Pairwise (fun a b => lexLt (versionKey a.version) (versionKey b.version) = true) :=
  claim_C3_output_sorted envW compW outW (by decide) (by decide) rfl

/-- Claim C4: `get_releases_for_version` selects exactly the releases of the
registry whose tag starts with the prefix `v<version>.` and contains neither
the release-candidate marker `rc` nor the platform-variant marker
`single-node`; on the synthetic tag set (v2.1.0, v2.1.0-rc1,
v2.1.0-single-node, v2.1.1) with version 2.1 the matched formal releases are
v2.1.0 and v2.1.1. -/
theorem claim_C4_release_tag_filtering :
    (∀ (env : Env) (version : String) (r : Release),
      r ∈ get_releases_for_version env version ↔
        (r ∈ env.releases
          ∧ strStartsWith r.tag_name ("v" ++ version ++ ".") = true
          ∧ strContains "rc" r.tag_name = false
          ∧ strContains "single-node" r.tag_name = false))
    ∧ (get_releases_for_version envW "2.1").map Release.tag_name
        = ["v2.1.0", "v2.1.1"] := by
  constructor
  · intro env version r
    unfold get_releases_for_version
    rw [(pySort_perm _ _).mem_iff, List.mem_filter]
    simp [Bool.and_eq_true, Bool.not_eq_true', and_assoc]
  · decide

/-- Claim C5: each derived day span is present iff both endpoint dates are
present, and a whole-day difference is returned exactly: creation 2024-01-01
with first release 2024-01-11 gives `preDays = 10`. -/
theorem claim_C5_day_spans (d : BranchData) :
    ((preDays d).isSome ↔ (d.branch_creation.isSome ∧ d.first_release.isSome))
    ∧ ((liveDays d).isSome ↔ (d.first_release.isSome ∧ d.last_release.isSome))
    ∧ ((maintDays d).isSome ↔ (d.last_release.isSome ∧ d.last_commit.isSome))
    ∧ (∀ s k : Int, days_between (some s) (some (s + k * 86400)) = some k)
    ∧ preDays exampleRecord = some 10 := by
  refine ⟨?_, ?_, ?_, ?_, by decide⟩
  · rcases hb : d.branch_creation with _ | a <;> rcases hf : d.first_release with _ | b <;>
      simp [preDays, days_between, hb, hf]
  · rcases hb : d.first_release with _ | a <;> rcases hf : d.last_release with _ | b <;>
      simp [liveDays, days_between, hb, hf]
  · rcases hb : d.last_release with _ | a <;> rcases hf : d.last_commit with _ | b <;>
      simp [maintDays, days_between, hb, hf]
  · intro s k
    simp only [days_between, Option.some.injEq]
    have h : s + k * 86400 - s = k * 86400 := by ring
    rw [h]
    exact Int.mul_fdiv_cancel k (by norm_num)

/-- Claim C6 counterexample: an estimated creation date is not
distinguishable in the record from a confidently resolved one — an
environment where merge-base resolution succeeds and one where it fails
(with the API fallback supplying the same oldest-commit date) produce
field-identical records. -/
theorem claim_C6_counterexample :
    process_branch_data envC6b ("2.1", branch21)
      = process_branch_data envC6a ("2.1", branch21)
    ∧ envC6b.merge_base_date "release-2.1" = none
    ∧ envC6a.merge_base_date "release-2.1" = some 1000 :=
  ⟨by decide, rfl, rfl⟩

/-- Claim C6 amended: for every branch whose merge-base resolution fails, the
record is still produced with `branch_creation` present (never absent), equal
to the fallback estimate — the oldest of the first 100 commits, else the
branch head's author date, else current time minus 30 days — stored as a
plain timestamp carrying no flag, hence not distinguishable from a
confidently resolved date. -/
theorem claim_C6_amended (env : Env) (bt : String × Branch)
    (hmb : env.merge_base_date bt.2.name = none)
    (hok : env.releases_ok bt.1 = true) :
    process_branch_data env bt = some (branch_record env bt)
    ∧ (branch_record env bt).branch_creation
        = some (get_branch_creation_date env bt.2.name)
    ∧ (∀ br cs, env.api_branch bt.2.name = some br →
        env.api_commits bt.2.name = some cs →
        get_branch_creation_date env bt.2.name
          = (cs.getLast?).getD br.head_author_date)
    ∧ ((env.api_branch bt.2.name = none ∨ env.api_commits bt.2.name = none) →
        get_branch_creation_date env bt.2.name = env.now - 30 * 86400) := by
  refine ⟨process_branch_data_of_ok hok, rfl, ?_, ?_⟩
  · intro br cs h3 h4
    unfold get_branch_creation_date
    rw [hmb, h3, h4]
    rcases hgl : cs.getLast? with _ | o <;> simp [hgl]
  · intro hc
    unfold get_branch_creation_date
    rw [hmb]
    rcases hc with hc | hc
    · rw [hc]
    · rcases hb : env.api_branch bt.2.name with _ | br
      · rfl
      · rw [hc]

/-- Witness for the amended C6: in `envC6b` the merge-base query fails and
the record still carries the fallback oldest-commit date 1000. -/
theorem claim_C6_witness :
    process_branch_data envC6b ("2.1", branch21)
      = some (branch_record envC6b ("2.1", branch21))
    ∧ get_branch_creation_date envC6b "release-2.1" = 1000 :=
  ⟨(claim_C6_amended envC6b ("2.1", branch21) rfl rfl).1,
   by
     have h := (claim_C6_amended envC6b ("2.1", branch21) rfl rfl).2.2.1
       branch21 [2000, 1000] rfl rfl
     rw [show ("2.1", branch21).2.name = "release-2.1" from rfl] at h
     rw [h]
     decide⟩

/-- Claim C7: the temporary clone directory is absent after every aggregation
run — normal completion, per-branch failure, or an escaping infrastructure
exception — and when no local mirror exists a temp directory is created
during the run (present during, absent after). -/
theorem claim_C7_temp_dir_removed (env : Env) (completion : List (String × Branch)) :
    (generate_timeline_data env completion).2.temp_dir_present = false
    ∧ (env.local_repo_exists = false → (generate_timeline_body env completion).2 = true) :=
  ⟨generate_fs env completion, fun h => generate_body_created completion h⟩

/-- Witness for C7: the cloning run `envW7` creates the temp directory and
removes it. -/
theorem claim_C7_witness :
    (generate_timeline_data envW7 compW).2.temp_dir_present = false
    ∧ (generate_timeline_body envW7 compW).2 = true :=
  ⟨(claim_C7_temp_dir_removed envW7 compW).1,
   (claim_C7_temp_dir_removed envW7 compW).2 rfl⟩

/-- Claim C8: when the `GITHUB_TOKEN` credential is absent from the process
environment, the program fails at module import with the fatal configuration
error, before any aggregation work begins, and produces no output: the
result is the configuration error for every environment and completion
order. -/
theorem claim_C8_missing_token_fatal (env : Env) (completion : List (String × Branch)) :
    run_program none env completion = Except.error tokenMissingMsg
    ∧ module_init none = Except.error tokenMissingMsg :=
  ⟨rfl, rfl⟩

/-- Claim C9 counterexample: two runs over field-identical upstream state
(equal branch lists, release lists, merge-base behaviour, API fallbacks and
release listings), differing only in wall-clock time, produce different
record sequences when a branch falls through to the `now - 30 days`
fallback. -/
theorem claim_C9_counterexample :
    envC9b.branches = envC9a.branches
    ∧ envC9b.releases = envC9a.releases
    ∧ envC9b.merge_base_date = envC9a.merge_base_date
    ∧ envC9b.api_branch = envC9a.api_branch
    ∧ envC9b.api_commits = envC9a.api_commits
    ∧ envC9b.releases_ok = envC9a.releases_ok
    ∧ (generate_timeline_data envC9a compC9).1 ≠ (generate_timeline_data envC9b compC9).1 :=
  ⟨rfl, rfl, rfl, rfl, rfl, rfl, by decide⟩

/-- Claim C9 amended: two aggregation runs against identical upstream state
yield field-identical record sequences — for any two completion orders and
any two wall-clock times — provided no branch falls through every date
fallback to the wall clock (equivalently, provided each branch's merge-base
query or its API fallback pair succeeds); a branch that reaches the final
`now - 30 days` fallback makes the output wall-clock dependent. -/
theorem claim_C9_idempotent_amended (env : Env) (n1 n2 : Int)
    (c1 c2 : List (String × Branch)) (out1 out2 : List BranchData)
    (hdist : (get_release_branches env).Pairwise
      (fun x y => versionKey x.1 ≠ versionKey y.1))
    (hp1 : c1.Perm (get_release_branches env))
    (hp2 : c2.Perm (get_release_branches env))
    (hnf : ∀ bt ∈ get_release_branches env,
      (env.merge_base_date bt.2.name).isSome = true
      ∨ ((env.api_branch bt.2.name).isSome = true
          ∧ (env.api_commits bt.2.name).isSome = true))
    (h1 : (generate_timeline_data { env with now := n1 } c1).1 = Except.ok out1)
    (h2 : (generate_timeline_data { env with now := n2 } c2).1 = Except.ok out2) :
    out1 = out2 := by
  have e1 := generate_ok_eq h1
  have e2 := generate_ok_eq h2
  have hcong : run_pool { env with now := n1 } c1 = run_pool { env with now := n2 } c1 :=
    run_pool_congr (fun bt hbt => process_now_indep (hnf bt (hp1.mem_iff.mp hbt)))
  have hpp : (run_pool { env with now := n2 } c1).Perm
      (run_pool { env with now := n2 } c2) :=
    run_pool_perm _ (hp1.trans hp2.symm)
  have hsym : ∀ {x y : String × Branch}, versionKey x.1 ≠ versionKey y.1 →
      versionKey y.1 ≠ versionKey x.1 := fun h => h.symm
  have hd1 : c1.Pairwise (fun x y => versionKey x.1 ≠ versionKey y.1) :=
    (hp1.pairwise_iff hsym).mpr hdist
  have hkeys := run_pool_keys_pairwise { env with now := n2 } hd1
  rw [e1, e2, hcong]
  exact sortReleaseData_eq_of_perm hpp hkeys

/-- Witness for the amended C9: two `envW9` runs at different wall-clock
times and different completion orders produce the same output. -/
theorem claim_C9_witness : outW9a = outW9b :=
  claim_C9_idempotent_amended envW9 86400000 0 compW compW9b outW9a outW9b
    (by decide) (by decide) (by decide) (by decide) rfl rfl

/-- Claim C10: `get_branch_creation_date` is total — for every environment
and branch it returns a concrete timestamp, cascading from the merge-base
date to the oldest of the first 100 commits, then the branch head's author
date, then current time minus 30 days — so the `branch_creation` field of a
produced record is never `none`. -/
theorem claim_C10_creation_date_total (env : Env) (bt : String × Branch)
    (hok : env.releases_ok bt.1 = true) :
    process_branch_data env bt = some (branch_record env bt)
    ∧ (branch_record env bt).branch_creation ≠ none
    ∧ (branch_record env bt).branch_creation
        = some (get_branch_creation_date env bt.2.name)
    ∧ (∀ d, env.merge_base_date bt.2.name = some d →
        get_branch_creation_date env bt.2.name = d)
    ∧ (env.merge_base_date bt.2.name = none →
        ∀ br cs, env.api_branch bt.2.name = some br →
          env.api_commits bt.2.name = some cs →
          get_branch_creation_date env bt.2.name
            = (cs.getLast?).getD br.head_author_date)
    ∧ (env.merge_base_date bt.2.name = none →
        (env.api_branch bt.2.name = none ∨ env.api_commits bt.2.name = none) →
        get_branch_creation_date env bt.2.name = env.now - 30 * 86400) := by
  refine ⟨process_branch_data_of_ok hok, by simp [branch_record], rfl, ?_, ?_, ?_⟩
  · intro d hd
    unfold get_branch_creation_date
    rw [hd]
  · intro hmb br cs h3 h4
    unfold get_branch_creation_date
    rw [hmb, h3, h4]
    rcases hgl : cs.getLast? with _ | o <;> simp [hgl]
  · intro hmb hc
    unfold get_branch_creation_date
    rw [hmb]
    rcases hc with hc | hc
    · rw [hc]
    · rcases hb : env.api_branch bt.2.name with _ | br
      · rfl
      · rw [hc]

/-- Witness for C10: in `envW` the branch `release-2.1` fails merge-base and
both API fallbacks, yet its record carries the concrete wall-clock estimate. -/
theorem claim_C10_witness :
    process_branch_data envW ("2.1", branch21)
      = some (branch_record envW ("2.1", branch21))
    ∧ (branch_record envW ("2.1", branch21)).branch_creation ≠ none
    ∧ get_branch_creation_date envW "release-2.1" = envW.now - 30 * 86400 :=
  ⟨(claim_C10_creation_date_total envW ("2.1", branch21) rfl).1,
   (claim_C10_creation_date_total envW ("2.1", branch21) rfl).2.1,
   (claim_C10_creation_date_total envW ("2.1", branch21) rfl).2.2.2.2.2 rfl (Or.inl rfl)⟩

end ReleaseViz
